import Mathlib

/-!
Shallow embedding of the strive-workout-tracker server (src/server/index.js)
over the relational schema in src/database/schema.sql.

Tables become lists of rows; each Express handler becomes a function from a
store to an `Except ApiError` result.  SQL `serial` columns are `Nat`, SQL
`int` is `Int` inside `Option` when nullable, SQL `numeric` is `Rat`,
timestamps are `Nat`.  Foreign-key constraints of the schema are modelled as
explicit existence checks on inserts (and on the update that rewrites
`exerciseId`), failing with a ReferentialIntegrity error exactly when the
database engine would reject the statement.
-/

/-- A row of the "users" table (schema.sql lines 9-17). -/
structure UserRow where
  userId : Nat
  username : String
  hashedPassword : String
deriving DecidableEq, Repr

/-- A row of the "workouts" table (schema.sql lines 21-29): `completedAt`
defaults to null, `workoutName` is nullable. -/
structure Workout where
  workoutId : Nat
  userId : Nat
  completedAt : Option Nat
  workoutName : Option String
deriving DecidableEq, Repr

/-- A row of the "exercises" table (schema.sql lines 33-41). -/
structure Exercise where
  exerciseId : Nat
  name : String
  muscleGroup : String
  equipment : Option String
deriving DecidableEq, Repr

/-- A row of the "sets" table (schema.sql lines 45-53): no primary key and no
uniqueness constraint of any kind; `reps` and `weight` are nullable. -/
structure SetRow where
  workoutId : Nat
  exerciseId : Nat
  setOrder : Nat
  reps : Option Int
  weight : Option Rat
deriving DecidableEq, Repr

/-- The relational store: the four tables. -/
structure Store where
  users : List UserRow
  workouts : List Workout
  exercises : List Exercise
  sets : List SetRow
deriving DecidableEq, Repr

/-- Error taxonomy of the service (spec section 7): ClientError(400) raised by
input validation is InvalidInput, foreign-key violations surfaced by the store
are ReferentialIntegrity, and any other runtime failure reaching the central
error middleware is Unhandled. -/
inductive ApiError where
  | invalidInput
  | unauthorized
  | referentialIntegrity
  | unhandled
deriving DecidableEq, Repr

/-- Foreign-key test: some workout row carries this `workoutId`
(sets_fk0 in schema.sql). -/
def workoutExists (st : Store) (wid : Nat) : Bool :=
  st.workouts.any (fun w => w.workoutId == wid)

/-- Foreign-key test: some exercise row carries this `exerciseId`
(sets_fk1 in schema.sql). -/
def exerciseExists (st : Store) (eid : Nat) : Bool :=
  st.exercises.any (fun e => e.exerciseId == eid)

/-- Next value of the "users" serial sequence. -/
def freshUserId (st : Store) : Nat :=
  st.users.foldl (fun m u => max m u.userId) 0 + 1

/-- Next value of the "workouts" serial sequence. -/
def freshWorkoutId (st : Store) : Nat :=
  st.workouts.foldl (fun m w => max m w.workoutId) 0 + 1

/-- POST /api/auth/sign-up (index.js lines 29-48): inserts a user row; a
missing username or password fails validation, a duplicate username violates
the unique constraint and reaches the generic handler. -/
def signUp (username hashedPassword : String) (st : Store) :
    Except ApiError (Store × UserRow) :=
  if username == "" || hashedPassword == "" then .error .invalidInput
  else if st.users.any (fun u => u.username == username) then .error .unhandled
  else
    let u : UserRow := ⟨freshUserId st, username, hashedPassword⟩
    .ok ({ st with users := st.users ++ [u] }, u)

/-- POST /api/new-workout (index.js lines 256-272): inserts a workout row
owned by the authenticated user, `completedAt` left at its null default. -/
def newWorkout (userId : Nat) (workoutName : Option String) (st : Store) :
    Except ApiError (Store × Workout) :=
  if userId == 0 then .error .invalidInput
  else if !(st.users.any (fun u => u.userId == userId)) then
    .error .referentialIntegrity
  else
    let w : Workout := ⟨freshWorkoutId st, userId, none, workoutName⟩
    .ok ({ st with workouts := st.workouts ++ [w] }, w)

/-- POST /api/workout/new-exercises (index.js lines 274-297): validates that
the workout id is truthy and the exercise-id list is non-empty, then performs
one multi-row insert, each row `($1, $id, 1)` leaving `reps`/`weight` null.
The batch is a single statement, so a foreign-key violation on any row fails
the whole batch. -/
def newExercises (workoutId : Nat) (exerciseIds : List Nat) (st : Store) :
    Except ApiError (Store × List SetRow) :=
  if workoutId == 0 || exerciseIds.length < 1 then .error .invalidInput
  else
    let rows := exerciseIds.map (fun eid => SetRow.mk workoutId eid 1 none none)
    if workoutExists st workoutId && exerciseIds.all (fun eid => exerciseExists st eid) then
      .ok ({ st with sets := st.sets ++ rows }, rows)
    else .error .referentialIntegrity

/-- One set entry `{setOrder, reps, weight}` of the PATCH /api/workout body. -/
structure SetPayload where
  setOrder : Nat
  reps : Option Int
  weight : Option Rat
deriving DecidableEq, Repr

/-- One exercise entry `{exerciseId, sets}` of the PATCH /api/workout body. -/
structure ExercisePayload where
  exerciseId : Nat
  sets : List SetPayload
deriving DecidableEq, Repr

/-- The update statement of the `setOrder === 1` branch (index.js lines
309-318) applied to one stored row: overwrite `reps` and `weight` where
`setOrder = $3 and workoutId = $4 and exerciseId = $5`. -/
def updateSetRow (workoutId exerciseId : Nat) (p : SetPayload) (s : SetRow) : SetRow :=
  if s.setOrder == p.setOrder && s.workoutId == workoutId && s.exerciseId == exerciseId then
    { s with reps := p.reps, weight := p.weight }
  else s

/-- One set entry of the PATCH body executed against the store (index.js lines
305-327): `setOrder === 1` updates in place, anything else inserts a new row.
A foreign-key violation on the insert leaves the store unchanged (the other
statements of the request are issued independently, so their writes stand). -/
def applySetEntry (workoutId exerciseId : Nat) (p : SetPayload) (st : Store) : Store :=
  if p.setOrder == 1 then
    { st with sets := st.sets.map (updateSetRow workoutId exerciseId p) }
  else
    if workoutExists st workoutId && exerciseExists st exerciseId then
      { st with sets := st.sets ++ [SetRow.mk workoutId exerciseId p.setOrder p.reps p.weight] }
    else st

/-- The name-update statement of PATCH /api/workout (index.js lines 328-337)
applied to one stored workout row. -/
def updateWorkoutName (workoutId : Nat) (n : String) (w : Workout) : Workout :=
  if w.workoutId == workoutId then { w with workoutName := some n } else w

/-- One exercise entry of the PATCH body: all its set statements, followed by
the name-update statement that the handler pushes inside the flatMap over
exercises whenever `workoutName` is truthy (index.js lines 303-339).  A
JavaScript string is truthy exactly when it is non-empty. -/
def applyExercisePayload (workoutId : Nat) (workoutName : Option String)
    (e : ExercisePayload) (st : Store) : Store :=
  let afterSets := e.sets.foldl (fun acc p => applySetEntry workoutId e.exerciseId p acc) st
  match workoutName with
  | some n =>
      if n == "" then afterSets
      else { afterSets with workouts := afterSets.workouts.map (updateWorkoutName workoutId n) }
  | none => afterSets

/-- All statements of the flatMap over the submitted exercises, in order. -/
def patchApply (workoutId : Nat) (workoutName : Option String)
    (exps : List ExercisePayload) (st : Store) : Store :=
  exps.foldl (fun acc e => applyExercisePayload workoutId workoutName e acc) st

/-- PATCH /api/workout/:workoutId (index.js lines 299-346): missing
`exercises` fails validation; otherwise every statement of the flatMap is
executed (the handler awaits them with Promise.all; writes are independent
statements in either case). -/
def patchWorkout (workoutId : Nat) (workoutName : Option String)
    (exercises : Option (List ExercisePayload)) (st : Store) : Except ApiError Store :=
  match exercises with
  | none => .error .invalidInput
  | some exps => .ok (patchApply workoutId workoutName exps st)

/-- PATCH /api/workout/:workoutId/exercise/:exerciseId (index.js lines
348-367): rewrites `exerciseId` on every set row of the (workout, exercise)
pair.  Rewriting to an unknown exercise id violates sets_fk1 whenever at
least one row is actually written. -/
def swapExercise (workoutId exerciseId newExerciseId : Nat) (st : Store) :
    Except ApiError Store :=
  if workoutId == 0 || exerciseId == 0 then .error .invalidInput
  else if st.sets.any (fun s => s.workoutId == workoutId && s.exerciseId == exerciseId)
          && !(exerciseExists st newExerciseId) then
    .error .referentialIntegrity
  else
    .ok { st with sets := st.sets.map (fun s =>
      if s.workoutId == workoutId && s.exerciseId == exerciseId then
        { s with exerciseId := newExerciseId }
      else s) }

/-- PATCH /api/workout/:workoutId/completed (index.js lines 369-384): writes
the current timestamp into `completedAt` and overwrites `workoutName`,
unconditionally, on every workout row carrying the id. -/
def completeWorkout (workoutId : Nat) (workoutName : Option String) (date : Nat)
    (st : Store) : Except ApiError Store :=
  if workoutId == 0 then .error .invalidInput
  else
    .ok { st with workouts := st.workouts.map (fun w =>
      if w.workoutId == workoutId then
        { w with completedAt := some date, workoutName := workoutName }
      else w) }

/-- DELETE /api/workout/:workoutId/exercise/:exerciseId (index.js lines
386-403): deletes every set row of the (workout, exercise) pair. -/
def deleteExercise (workoutId exerciseId : Nat) (st : Store) :
    Except ApiError Store :=
  if workoutId == 0 || exerciseId == 0 then .error .invalidInput
  else
    .ok { st with sets := st.sets.filter (fun s =>
      !(s.workoutId == workoutId && s.exerciseId == exerciseId)) }

/-- DELETE /api/user/empty-workouts (index.js lines 170-189): one statement
whose CTE deletes the caller's workouts with null `completedAt`, returning
their ids, and whose outer delete removes the set rows referencing them. -/
def purgeEmptyWorkouts (userId : Nat) (st : Store) : Except ApiError Store :=
  if userId == 0 then .error .invalidInput
  else
    let doomedIds := (st.workouts.filter
      (fun w => w.completedAt == none && w.userId == userId)).map (fun w => w.workoutId)
    .ok { st with
      workouts := st.workouts.filter
        (fun w => !(w.completedAt == none && w.userId == userId)),
      sets := st.sets.filter (fun s => !(doomedIds.contains s.workoutId)) }

/-- One row of the three-way join issued by GET /api/workout/:workoutId
(index.js lines 112-126). -/
structure DetailRow where
  workoutId : Nat
  exerciseId : Nat
  setOrder : Nat
  reps : Option Int
  weight : Option Rat
  name : String
  equipment : Option String
  workoutName : Option String
deriving DecidableEq, Repr

/-- The join `sets join exercises using (exerciseId) join workouts using
(workoutId) where sets.workoutId = $1`: one output row per set row of the
workout, carrying the matching exercise and workout columns. -/
def detailRows (workoutId : Nat) (st : Store) : List DetailRow :=
  st.sets.filterMap (fun s =>
    if s.workoutId == workoutId then
      match st.exercises.find? (fun e => e.exerciseId == s.exerciseId),
            st.workouts.find? (fun w => w.workoutId == s.workoutId) with
      | some e, some w =>
          some ⟨s.workoutId, s.exerciseId, s.setOrder, s.reps, s.weight,
                e.name, e.equipment, w.workoutName⟩
      | _, _ => none
    else none)

/-- The synthesized placeholder set of the workout-detail response
(index.js lines 135-139). -/
structure PlaceholderSet where
  setOrder : Nat
  reps : Option Int
  weight : Option Rat
deriving DecidableEq, Repr

/-- One exercise entry of the workout-detail response (index.js lines
131-140). -/
structure DetailExercise where
  exerciseId : Nat
  name : String
  equipment : Option String
  sets : List PlaceholderSet
deriving DecidableEq, Repr

/-- The workout-detail response body (index.js lines 143-147). -/
structure WorkoutDetail where
  workoutId : Nat
  workoutName : Option String
  exercises : List DetailExercise
deriving DecidableEq, Repr

/-- GET /api/workout/:workoutId (index.js lines 108-151): reads
`result.rows[0].workoutName` - on an empty result set `rows[0]` is undefined
and the field access throws, which the promise chain routes to the generic
error middleware (Unhandled).  Otherwise it maps every joined row to an
exercise entry whose `sets` list is the single synthesized placeholder. -/
def getWorkoutDetail (workoutId : Nat) (st : Store) :
    Except ApiError WorkoutDetail :=
  if workoutId == 0 then .error .invalidInput
  else
    let rows := detailRows workoutId st
    match rows.head? with
    | none => .error .unhandled
    | some r0 =>
        .ok ⟨workoutId, r0.workoutName,
             rows.map (fun r => ⟨r.exerciseId, r.name, r.equipment,
                                 [⟨1, none, none⟩]⟩)⟩

/-- One row of the `bestSetCTE` of GET /api/user/workout-sets (index.js lines
196-217): the joined columns of a set row with non-null `reps` and `weight`
belonging to the caller.  The CTE's `group by` lists every selected column,
so it only collapses fully identical joined rows. -/
structure BestRow where
  workoutId : Nat
  exerciseId : Nat
  setOrder : Nat
  reps : Int
  weight : Rat
  userId : Nat
  completedAt : Option Nat
  workoutName : Option String
  name : String
  muscleGroup : String
  equipment : Option String
deriving DecidableEq, Repr

/-- `volume = reps * weight` (index.js line 198). -/
def volume (r : BestRow) : Rat := r.reps * r.weight

/-- The (workoutId, exerciseId) partition key of the window function
(index.js line 199). -/
def pairKey (r : BestRow) : Nat × Nat := (r.workoutId, r.exerciseId)

/-- `sets join workouts using (workoutId) join exercises using (exerciseId)
where reps is not null and weight is not null and userId = $1`: the rows the
statistics query considers. -/
def filledRows (userId : Nat) (st : Store) : List BestRow :=
  st.sets.filterMap (fun s =>
    match s.reps, s.weight with
    | some rp, some wt =>
        match st.workouts.find? (fun w => w.workoutId == s.workoutId),
              st.exercises.find? (fun e => e.exerciseId == s.exerciseId) with
        | some w, some e =>
            if w.userId == userId then
              some ⟨s.workoutId, s.exerciseId, s.setOrder, rp, wt,
                    w.userId, w.completedAt, w.workoutName,
                    e.name, e.muscleGroup, e.equipment⟩
            else none
        | _, _ => none
    | _, _ => none)

/-- `bestSetCTE` (index.js lines 196-217): the filled joined rows, collapsed
by the all-column `group by`. -/
def bestSetCTE (userId : Nat) (st : Store) : List BestRow :=
  (filledRows userId st).dedup

/-- The row of a (workout, exercise) group that the window function numbers 1
under `order by reps * weight desc`: a row of the group of maximal volume
(ties broken by underlying row order, here the first such row). -/
def bestOfPair (rows : List BestRow) (k : Nat × Nat) : Option BestRow :=
  let g := rows.filter (fun r => pairKey r == k)
  g.find? (fun r => g.all (fun r2 => decide (volume r2 ≤ volume r)))

/-- The rows of `bestSetCTE` surviving `where row_number = 1`: one row per
(workout, exercise) key present among the filled rows. -/
def rowNumberOne (userId : Nat) (st : Store) : List BestRow :=
  let rows := bestSetCTE userId st
  ((rows.map pairKey).dedup).filterMap (fun k => bestOfPair rows k)

/-- One row of the `totalSetsCTE` (index.js lines 218-233): the count of the
caller's filled set rows per (workout, exercise) pair, with the workout's
completion timestamp. -/
structure TotalRow where
  workoutId : Nat
  exerciseId : Nat
  totalSets : Nat
  completedAt : Option Nat
deriving DecidableEq, Repr

/-- `totalSetsCTE`: grouped over the same filled joined rows (its `where`
clause repeats the non-null and userId filters). -/
def totalSetsCTE (userId : Nat) (st : Store) : List TotalRow :=
  let rows := filledRows userId st
  ((rows.map pairKey).dedup).filterMap (fun k =>
    match (rows.filter (fun r => pairKey r == k)).head? with
    | some r0 =>
        some ⟨k.1, k.2, (rows.filter (fun r => pairKey r == k)).length,
              r0.completedAt⟩
    | none => none)

/-- One row of the final select of GET /api/user/workout-sets (index.js lines
234-246). -/
structure StatRow where
  equipment : Option String
  exerciseId : Nat
  name : String
  reps : Int
  totalSets : Nat
  weight : Rat
  workoutId : Nat
  workoutName : Option String
  completedAt : Option Nat
deriving DecidableEq, Repr

/-- `order by name asc` compares rows by exercise name. -/
def statLE (a b : StatRow) : Prop := a.name ≤ b.name

instance : DecidableRel statLE :=
  fun a b => inferInstanceAs (Decidable (a.name ≤ b.name))

instance : IsTotal StatRow statLE := ⟨fun a b => le_total a.name b.name⟩

instance : IsTrans StatRow statLE := ⟨fun _ _ _ h1 h2 => le_trans h1 h2⟩

/-- GET /api/user/workout-sets (index.js lines 191-254): join the best rows
against the per-pair totals `using (workoutId, exerciseId)` and sort the
result by exercise name ascending. -/
def getUserWorkoutSets (userId : Nat) (st : Store) :
    Except ApiError (List StatRow) :=
  if userId == 0 then .error .invalidInput
  else
    let best := rowNumberOne userId st
    let totals := totalSetsCTE userId st
    let joined := best.filterMap (fun b =>
      (totals.find? (fun t => t.workoutId == b.workoutId && t.exerciseId == b.exerciseId)).map
        (fun t => StatRow.mk b.equipment b.exerciseId b.name b.reps t.totalSets
                  b.weight b.workoutId b.workoutName t.completedAt))
    .ok (joined.insertionSort statLE)

/-- The mutating operations of the service, one constructor per write
endpoint of index.js. -/
inductive Op where
  | signUpOp (username hashedPassword : String)
  | newWorkoutOp (userId : Nat) (workoutName : Option String)
  | newExercisesOp (workoutId : Nat) (exerciseIds : List Nat)
  | patchWorkoutOp (workoutId : Nat) (workoutName : Option String)
      (exercises : Option (List ExercisePayload))
  | swapExerciseOp (workoutId exerciseId newExerciseId : Nat)
  | completeWorkoutOp (workoutId : Nat) (workoutName : Option String) (date : Nat)
  | deleteExerciseOp (workoutId exerciseId : Nat)
  | purgeOp (userId : Nat)
deriving DecidableEq, Repr

/-- The store an endpoint leaves behind: its result state on success, the
untouched store when the request was rejected before writing. -/
def stateOf (st : Store) : Except ApiError Store → Store
  | .ok st2 => st2
  | .error _ => st

/-- The store left behind by an endpoint that also returns created rows. -/
def stateOfPair {α : Type} (st : Store) : Except ApiError (Store × α) → Store
  | .ok (st2, _) => st2
  | .error _ => st

/-- The post-state of each mutating operation of the service. -/
def applyOp (op : Op) (st : Store) : Store :=
  match op with
  | .signUpOp u h => stateOfPair st (signUp u h st)
  | .newWorkoutOp u n => stateOfPair st (newWorkout u n st)
  | .newExercisesOp w ids => stateOfPair st (newExercises w ids st)
  | .patchWorkoutOp w n exps => stateOf st (patchWorkout w n exps st)
  | .swapExerciseOp w e e2 => stateOf st (swapExercise w e e2 st)
  | .completeWorkoutOp w n d => stateOf st (completeWorkout w n d st)
  | .deleteExerciseOp w e => stateOf st (deleteExercise w e st)
  | .purgeOp u => stateOf st (purgeEmptyWorkouts u st)

/-- Referential integrity of the store (sets_fk0 and sets_fk1): every set row
references an existing workout and an existing exercise. -/
def Integrity (st : Store) : Prop :=
  (∀ s ∈ st.sets, ∃ w ∈ st.workouts, w.workoutId = s.workoutId) ∧
  (∀ s ∈ st.sets, ∃ e ∈ st.exercises, e.exerciseId = s.exerciseId)

/-- Key uniqueness guaranteed by the serial primary keys of "workouts" and
"exercises". -/
def UniqueIds (st : Store) : Prop :=
  (st.workouts.map (fun w => w.workoutId)).Nodup ∧
  (st.exercises.map (fun e => e.exerciseId)).Nodup

/-- A set row the statistics query considers: `reps` and `weight` non-null,
its workout owned by the given user, its exercise present in the catalog. -/
def OwnedFilled (userId : Nat) (st : Store) (s : SetRow) : Prop :=
  s.reps ≠ none ∧ s.weight ≠ none ∧
  (∃ w ∈ st.workouts, w.workoutId = s.workoutId ∧ w.userId = userId) ∧
  (∃ e ∈ st.exercises, e.exerciseId = s.exerciseId)

/-- A small populated store used to instantiate the theorems on concrete
data: two users, one in-progress and one completed workout for the first
user, one in-progress workout for the second, and a handful of sets. -/
def demoStore : Store :=
  { users := [⟨1, "alice", "ha"⟩, ⟨2, "bob", "hb"⟩],
    workouts := [⟨1, 1, none, some "Old"⟩, ⟨2, 1, some 5, some "Done"⟩,
                 ⟨3, 2, none, none⟩],
    exercises := [⟨1, "Bench", "Chest", some "Barbell"⟩, ⟨2, "Squat", "Legs", none⟩],
    sets := [⟨1, 1, 1, none, none⟩, ⟨1, 2, 1, some 5, some 100⟩,
             ⟨1, 2, 2, some 3, some 150⟩, ⟨2, 1, 1, some 8, some 60⟩,
             ⟨3, 1, 1, some 2, some 20⟩] }

/-! ## Helper lemmas -/

/-- The attach-exercises endpoint on valid input: the exact success result. -/
theorem newExercises_ok (w : Nat) (ids : List Nat) (st : Store)
    (hw : w ≠ 0) (hne : ids ≠ []) (hwex : workoutExists st w = true)
    (hall : ∀ e ∈ ids, exerciseExists st e = true) :
    newExercises w ids st =
      .ok ({ st with sets := st.sets ++ ids.map (fun e => SetRow.mk w e 1 none none) },
           ids.map (fun e => SetRow.mk w e 1 none none)) := by
  have h1 : (w == 0) = false := by simpa using hw
  have h2 : ¬ ids.length < 1 := by
    have := List.length_pos.mpr hne
    omega
  have hc : (workoutExists st w && ids.all fun eid => exerciseExists st eid) = true := by
    rw [Bool.and_eq_true, List.all_eq_true]
    exact ⟨hwex, hall⟩
  simp [newExercises, h1, h2, hc]

/-! ## C4: attach-exercises validation and insertion -/

/-- C4: an attach-exercises call with an empty exercise-identifier list fails
with InvalidInput and leaves the store unchanged; with a non-empty list it
inserts, per listed identifier, exactly one set row with setOrder 1 and null
reps and weight, linked to the target workout. -/
theorem newExercises_empty_invalid_nonempty_inserts (w : Nat) (ids : List Nat)
    (st : Store) (hw : w ≠ 0) :
    (ids = [] → newExercises w ids st = .error .invalidInput ∧
       stateOfPair st (newExercises w ids st) = st)
    ∧ (ids ≠ [] → workoutExists st w = true →
       (∀ e ∈ ids, exerciseExists st e = true) →
       ∃ st2, newExercises w ids st =
           .ok (st2, ids.map (fun e => SetRow.mk w e 1 none none)) ∧
         st2.sets = st.sets ++ ids.map (fun e => SetRow.mk w e 1 none none)) := by
  constructor
  · rintro rfl
    have : newExercises w [] st = .error .invalidInput := by
      simp [newExercises]
    exact ⟨this, by rw [this]; rfl⟩
  · intro hne hwex hall
    exact ⟨_, newExercises_ok w ids st hw hne hwex hall, rfl⟩

/-- Witness for C4 on the demo store: empty list rejected, singleton list
appends exactly one null placeholder row. -/
theorem newExercises_empty_invalid_nonempty_inserts_witness :
    (newExercises 1 [] demoStore = .error .invalidInput ∧
       stateOfPair demoStore (newExercises 1 [] demoStore) = demoStore)
    ∧ ∃ st2, newExercises 1 [2] demoStore =
          .ok (st2, [SetRow.mk 1 2 1 none none]) ∧
        st2.sets = demoStore.sets ++ [SetRow.mk 1 2 1 none none] := by
  constructor
  · exact (newExercises_empty_invalid_nonempty_inserts 1 [] demoStore (by decide)).1 rfl
  · have h := (newExercises_empty_invalid_nonempty_inserts 1 [2] demoStore (by decide)).2
      (by decide) (by decide) (by decide)
    simpa using h

/-! ## C10: duplicate identifiers in the attach list -/

/-- C10: an attach-exercises call whose list repeats an identifier succeeds
and creates one setOrder-1 row per occurrence: the number of
(workout, exercise, setOrder=1) rows grows by the multiplicity of the
identifier in the list, so one pair can hold several setOrder-1 rows. -/
theorem newExercises_duplicates_create_duplicate_rows (w : Nat) (ids : List Nat)
    (st : Store) (hw : w ≠ 0) (hne : ids ≠ [])
    (hwex : workoutExists st w = true)
    (hall : ∀ e ∈ ids, exerciseExists st e = true) :
    ∃ st2, newExercises w ids st =
        .ok (st2, ids.map (fun e => SetRow.mk w e 1 none none)) ∧
      ∀ e : Nat,
        st2.sets.countP (fun s => s.workoutId == w && s.exerciseId == e && s.setOrder == 1)
          = st.sets.countP (fun s => s.workoutId == w && s.exerciseId == e && s.setOrder == 1)
            + ids.count e := by
  refine ⟨_, newExercises_ok w ids st hw hne hwex hall, ?_⟩
  intro e
  rw [List.countP_append, List.countP_map]
  congr 1
  rw [List.count_eq_countP]
  refine List.countP_congr ?_
  intro x _
  simp [Function.comp]

/-- Witness for C10: attaching [squat, squat] to workout 1 leaves two
setOrder-1 rows for the pair. -/
theorem newExercises_duplicates_create_duplicate_rows_witness :
    ∃ st2, newExercises 1 [2, 2] demoStore =
        .ok (st2, [SetRow.mk 1 2 1 none none, SetRow.mk 1 2 1 none none]) ∧
      st2.sets.countP (fun s => s.workoutId == 1 && s.exerciseId == 2 && s.setOrder == 1)
        = demoStore.sets.countP (fun s => s.workoutId == 1 && s.exerciseId == 2 && s.setOrder == 1)
          + 2 := by
  obtain ⟨st2, h1, h2⟩ := newExercises_duplicates_create_duplicate_rows 1 [2, 2] demoStore
    (by decide) (by decide) (by decide) (by decide)
  refine ⟨st2, by simpa using h1, ?_⟩
  have := h2 2
  simpa using this

/-! ## C5: setOrder = 1 update with no matching row -/

/-- C5: a setOrder = 1 entry whose (workout, exercise) pair has no existing
setOrder-1 row is a silent no-op: the update statement matches zero rows, the
store is unchanged, and the operation reports success rather than an error. -/
theorem patch_first_set_missing_row_noop (w e : Nat) (p : SetPayload) (st : Store)
    (hp : p.setOrder = 1)
    (hmiss : ∀ s ∈ st.sets, ¬(s.workoutId = w ∧ s.exerciseId = e ∧ s.setOrder = 1)) :
    patchWorkout w none (some [⟨e, [p]⟩]) st = .ok st := by
  have hmap : st.sets.map (updateSetRow w e p) = st.sets := by
    conv_rhs => rw [show st.sets = st.sets.map id from (List.map_id st.sets).symm]
    refine List.map_congr_left ?_
    intro s hs
    have hcond : (s.setOrder == p.setOrder && s.workoutId == w && s.exerciseId == e) = false := by
      have : ¬ (s.setOrder == p.setOrder && s.workoutId == w && s.exerciseId == e) = true := by
        rw [hp]
        simp only [Bool.and_eq_true, beq_iff_eq]
        rintro ⟨⟨h1, h2⟩, h3⟩
        exact hmiss s hs ⟨h2, h3, h1⟩
      simpa using this
    simp [updateSetRow, hcond]
  simp [patchWorkout, patchApply, applyExercisePayload, applySetEntry, hp, hmap]

/-- Witness for C5: workout 7 has no set rows at all, so a setOrder-1 entry
for (7, squat) succeeds and returns the store untouched. -/
theorem patch_first_set_missing_row_noop_witness :
    patchWorkout 7 none (some [⟨2, [⟨1, some 10, some 50⟩]⟩]) demoStore = .ok demoStore :=
  patch_first_set_missing_row_noop 7 2 ⟨1, some 10, some 50⟩ demoStore rfl (by decide)

/-! ## C3: the workout-name update of PATCH /api/workout -/

/-- C3 counterexample: with a workout name supplied but an empty exercises
list, PATCH /api/workout issues no name-update statement at all (the update
is pushed inside the flatMap over exercises), so the store comes back
unchanged and workout 1 keeps its old name. -/
theorem patch_name_empty_exercises_cex :
    patchWorkout 1 (some "NewName") (some []) demoStore = .ok demoStore ∧
    ∃ w ∈ demoStore.workouts, w.workoutId = 1 ∧ w.workoutName ≠ some "NewName" := by
  constructor
  · rfl
  · exact ⟨⟨1, 1, none, some "Old"⟩, by decide, by decide⟩

/-- C3 (amended): when a (truthy, i.e. non-empty) workout name is supplied
and the exercises list is non-empty, the targeted workout's name is updated
to the supplied value in the same logical operation; with an empty exercises
list the name statement is never issued. -/
theorem patch_name_updated_with_nonempty_exercises (w : Nat) (n : String)
    (hn : n ≠ "") (exps : List ExercisePayload) (hne : exps ≠ []) (st : Store) :
    ∃ st2, patchWorkout w (some n) (some exps) st = .ok st2 ∧
      ∀ wk ∈ st2.workouts, wk.workoutId = w → wk.workoutName = some n := by
  refine ⟨patchApply w (some n) exps st, rfl, ?_⟩
  rcases List.eq_nil_or_concat' exps with h | ⟨init, last, rfl⟩
  · exact absurd h hne
  intro wk hwk hid
  unfold patchApply at hwk
  rw [List.foldl_append, List.foldl_cons, List.foldl_nil] at hwk
  have hne2 : (n == "") = false := by simpa using hn
  simp only [applyExercisePayload, hne2, Bool.false_eq_true, if_false] at hwk
  rw [List.mem_map] at hwk
  obtain ⟨x, _, rfl⟩ := hwk
  by_cases hx : (x.workoutId == w) = true
  · simp [updateWorkoutName, hx]
  · exfalso
    simp only [updateWorkoutName, hx, Bool.false_eq_true, if_false] at hid
    rw [Bool.not_eq_true, beq_eq_false_iff_ne] at hx
    exact hx hid

/-- Witness for C3 (amended): one exercise entry in the list suffices for the
name of workout 1 to become the supplied one. -/
theorem patch_name_updated_with_nonempty_exercises_witness :
    ∃ st2, patchWorkout 1 (some "NewName") (some [⟨1, []⟩]) demoStore = .ok st2 ∧
      ∀ wk ∈ st2.workouts, wk.workoutId = 1 → wk.workoutName = some "NewName" :=
  patch_name_updated_with_nonempty_exercises 1 "NewName" (by decide) [⟨1, []⟩]
    (by decide) demoStore

/-! ## C9 and C7: the workout-detail query -/

/-- C9: on a workout that exists but has no set rows, the detail handler
reads `rows[0].workoutName` of an empty result set and fails with an
Unhandled error instead of returning an empty exercise list. -/
theorem getWorkoutDetail_no_sets_unhandled (wid : Nat) (st : Store) (hw0 : wid ≠ 0)
    (hex : ∃ w ∈ st.workouts, w.workoutId = wid)
    (hno : ∀ s ∈ st.sets, s.workoutId ≠ wid) :
    getWorkoutDetail wid st = .error .unhandled := by
  have h0 : (wid == 0) = false := by simpa using hw0
  have hrows : detailRows wid st = [] := by
    rw [detailRows, List.filterMap_eq_nil_iff]
    intro s hs
    have : (s.workoutId == wid) = false := by simpa using hno s hs
    simp [this]
  simp [getWorkoutDetail, h0, hrows]

/-- Witness for C9: workout 3 exists but holds no set rows once its only set
is dropped from the demo store, and the detail query then fails. -/
theorem getWorkoutDetail_no_sets_unhandled_witness :
    getWorkoutDetail 3 { demoStore with sets := demoStore.sets.take 4 } = .error .unhandled := by
  refine getWorkoutDetail_no_sets_unhandled 3 _ (by decide) ?_ (by decide)
  exact ⟨⟨3, 2, none, none⟩, by decide, rfl⟩

/-- C7: on a workout that has set rows, the detail response carries one
exercise entry per joined set row, and every entry's sets list is exactly the
single synthesized placeholder (setOrder 1, null reps, null weight),
whatever set data is actually stored. -/
theorem getWorkoutDetail_placeholder (wid : Nat) (st : Store) (hw0 : wid ≠ 0)
    (hint : Integrity st) (hs : ∃ s ∈ st.sets, s.workoutId = wid) :
    ∃ d, getWorkoutDetail wid st = .ok d ∧
      d.exercises = (detailRows wid st).map
        (fun r => DetailExercise.mk r.exerciseId r.name r.equipment
          [PlaceholderSet.mk 1 none none]) ∧
      d.exercises.length = (detailRows wid st).length ∧
      ∀ ex ∈ d.exercises, ex.sets = [PlaceholderSet.mk 1 none none] := by
  obtain ⟨s, hsmem, hsid⟩ := hs
  have hwf : (st.workouts.find? (fun w => w.workoutId == s.workoutId)).isSome := by
    rw [List.find?_isSome]
    obtain ⟨w, hwmem, hwid⟩ := hint.1 s hsmem
    exact ⟨w, hwmem, by simpa using hwid⟩
  have hef : (st.exercises.find? (fun e => e.exerciseId == s.exerciseId)).isSome := by
    rw [List.find?_isSome]
    obtain ⟨e, hemem, heid⟩ := hint.2 s hsmem
    exact ⟨e, hemem, by simpa using heid⟩
  obtain ⟨w, hwf⟩ := Option.isSome_iff_exists.mp hwf
  obtain ⟨e, hef⟩ := Option.isSome_iff_exists.mp hef
  have hrow : (DetailRow.mk s.workoutId s.exerciseId s.setOrder s.reps s.weight
      e.name e.equipment w.workoutName) ∈ detailRows wid st := by
    rw [detailRows, List.mem_filterMap]
    refine ⟨s, hsmem, ?_⟩
    have hc : (s.workoutId == wid) = true := by simpa using hsid
    simp only [hc, if_true, hef, hwf]
  have hne : detailRows wid st ≠ [] := List.ne_nil_of_mem hrow
  obtain ⟨r0, rest, hcons⟩ := List.exists_cons_of_ne_nil hne
  have h0 : (wid == 0) = false := by simpa using hw0
  refine ⟨⟨wid, r0.workoutName, (detailRows wid st).map
      (fun r => DetailExercise.mk r.exerciseId r.name r.equipment
        [PlaceholderSet.mk 1 none none])⟩, ?_, rfl, by rw [List.length_map], ?_⟩
  · rw [getWorkoutDetail]
    simp only [h0, Bool.false_eq_true, if_false, hcons, List.head?_cons]
  · intro ex hex2
    rw [List.mem_map] at hex2
    obtain ⟨r, _, rfl⟩ := hex2
    rfl

/-- Witness for C7 on the demo store: workout 1 has three set rows, two of
them filled, yet every entry of the response carries only the placeholder. -/
theorem getWorkoutDetail_placeholder_witness :
    ∃ d, getWorkoutDetail 1 demoStore = .ok d ∧
      d.exercises = (detailRows 1 demoStore).map
        (fun r => DetailExercise.mk r.exerciseId r.name r.equipment
          [PlaceholderSet.mk 1 none none]) ∧
      d.exercises.length = (detailRows 1 demoStore).length ∧
      ∀ ex ∈ d.exercises, ex.sets = [PlaceholderSet.mk 1 none none] := by
  refine getWorkoutDetail_placeholder 1 demoStore (by decide) ⟨?_, ?_⟩ ?_
  · intro s hs
    fin_cases hs <;> first
      | exact ⟨⟨1, 1, none, some "Old"⟩, by decide, rfl⟩
      | exact ⟨⟨2, 1, some 5, some "Done"⟩, by decide, rfl⟩
      | exact ⟨⟨3, 2, none, none⟩, by decide, rfl⟩
  · intro s hs
    fin_cases hs <;> first
      | exact ⟨⟨1, "Bench", "Chest", some "Barbell"⟩, by decide, rfl⟩
      | exact ⟨⟨2, "Squat", "Legs", none⟩, by decide, rfl⟩
  · exact ⟨⟨1, 1, 1, none, none⟩, by decide, rfl⟩

/-! ## C1: the setOrder branch of the upsert -/

/-- The per-set statements of PATCH /api/workout never touch the "workouts"
table. -/
theorem applySetEntry_workouts (w e : Nat) (p : SetPayload) (st : Store) :
    (applySetEntry w e p st).workouts = st.workouts := by
  rw [applySetEntry]
  split
  · rfl
  · split
    · rfl
    · rfl

/-- The per-set statements of PATCH /api/workout never touch the "exercises"
table. -/
theorem applySetEntry_exercises (w e : Nat) (p : SetPayload) (st : Store) :
    (applySetEntry w e p st).exercises = st.exercises := by
  rw [applySetEntry]
  split
  · rfl
  · split
    · rfl
    · rfl

/-- The update of the `setOrder = 1` branch leaves the key columns of every
row unchanged. -/
theorem updateSetRow_key_fields (w e : Nat) (p : SetPayload) (s : SetRow) :
    (updateSetRow w e p s).workoutId = s.workoutId ∧
    (updateSetRow w e p s).exerciseId = s.exerciseId ∧
    (updateSetRow w e p s).setOrder = s.setOrder := by
  rw [updateSetRow]
  split
  · exact ⟨rfl, rfl, rfl⟩
  · exact ⟨rfl, rfl, rfl⟩

/-- C1: each submitted set entry branches on setOrder.  A setOrder = 1 entry
updates the rows matched by (workoutId, exerciseId, setOrder = 1) in place,
overwriting reps and weight, leaving the row count for that key (and every
unmatched row) unchanged; a setOrder > 1 entry always appends a new row with
the given values, so submitting the identical entry twice yields two rows. -/
theorem patch_set_entry_reconciliation (w e : Nat) (p : SetPayload) (st : Store) :
    (p.setOrder = 1 →
      ∃ st2, patchWorkout w none (some [⟨e, [p]⟩]) st = .ok st2 ∧
        st2.workouts = st.workouts ∧
        st2.sets = st.sets.map (updateSetRow w e p) ∧
        st2.sets.countP (fun s => s.workoutId == w && s.exerciseId == e && s.setOrder == 1)
          = st.sets.countP (fun s => s.workoutId == w && s.exerciseId == e && s.setOrder == 1) ∧
        (∀ s ∈ st.sets, s.workoutId = w → s.exerciseId = e → s.setOrder = 1 →
           { s with reps := p.reps, weight := p.weight } ∈ st2.sets) ∧
        (∀ s ∈ st.sets, ¬(s.workoutId = w ∧ s.exerciseId = e ∧ s.setOrder = 1) →
           s ∈ st2.sets))
    ∧ (1 < p.setOrder → workoutExists st w = true → exerciseExists st e = true →
      ∃ st2 st3, patchWorkout w none (some [⟨e, [p]⟩]) st = .ok st2 ∧
        st2.sets = st.sets ++ [SetRow.mk w e p.setOrder p.reps p.weight] ∧
        patchWorkout w none (some [⟨e, [p]⟩]) st2 = .ok st3 ∧
        st3.sets = st.sets ++ [SetRow.mk w e p.setOrder p.reps p.weight,
                               SetRow.mk w e p.setOrder p.reps p.weight]) := by
  constructor
  · intro hp
    have hpatch : patchWorkout w none (some [⟨e, [p]⟩]) st
        = .ok { st with sets := st.sets.map (updateSetRow w e p) } := by
      simp [patchWorkout, patchApply, applyExercisePayload, applySetEntry, hp]
    refine ⟨_, hpatch, rfl, rfl, ?_, ?_, ?_⟩
    · show (st.sets.map (updateSetRow w e p)).countP _ = _
      rw [List.countP_map]
      refine List.countP_congr ?_
      intro s _
      obtain ⟨h1, h2, h3⟩ := updateSetRow_key_fields w e p s
      show ((updateSetRow w e p s).workoutId == w && (updateSetRow w e p s).exerciseId == e
        && (updateSetRow w e p s).setOrder == 1) = true ↔ _
      rw [h1, h2, h3]
    · intro s hs hsw hse hso
      show _ ∈ st.sets.map (updateSetRow w e p)
      rw [List.mem_map]
      refine ⟨s, hs, ?_⟩
      have hc : (s.setOrder == p.setOrder && s.workoutId == w && s.exerciseId == e) = true := by
        simp [hp, hso, hsw, hse]
      simp [updateSetRow, hc]
    · intro s hs hnot
      show s ∈ st.sets.map (updateSetRow w e p)
      rw [List.mem_map]
      refine ⟨s, hs, ?_⟩
      have hc : (s.setOrder == p.setOrder && s.workoutId == w && s.exerciseId == e) = false := by
        have : ¬ (s.setOrder == p.setOrder && s.workoutId == w && s.exerciseId == e) = true := by
          simp only [Bool.and_eq_true, beq_iff_eq]
          rintro ⟨⟨h1, h2⟩, h3⟩
          exact hnot ⟨h2, h3, h1.trans hp⟩
        simpa using this
      simp [updateSetRow, hc]
  · intro hgt hwex heex
    have hso : (p.setOrder == 1) = false := by
      rw [beq_eq_false_iff_ne]
      omega
    have hpatch : ∀ stx : Store, workoutExists stx w = true → exerciseExists stx e = true →
        patchWorkout w none (some [⟨e, [p]⟩]) stx
          = .ok { stx with sets := stx.sets ++ [SetRow.mk w e p.setOrder p.reps p.weight] } := by
      intro stx h1 h2
      have happ : applySetEntry w e p stx
          = { stx with sets := stx.sets ++ [SetRow.mk w e p.setOrder p.reps p.weight] } := by
        rw [applySetEntry, hso, h1, h2]
        simp
      simp [patchWorkout, patchApply, applyExercisePayload, happ]
    refine ⟨_, _, hpatch st hwex heex, rfl, hpatch _ hwex heex, ?_⟩
    simp

/-- Witness for C1 on the demo store: a setOrder-1 entry for (1, bench)
preserves the row count of the key, and the identical setOrder-2 entry for
(1, squat) submitted twice appends two equal rows. -/
theorem patch_set_entry_reconciliation_witness :
    (∃ st2, patchWorkout 1 none (some [⟨1, [⟨1, some 9, some 10⟩]⟩]) demoStore = .ok st2 ∧
       st2.sets.countP (fun s => s.workoutId == 1 && s.exerciseId == 1 && s.setOrder == 1)
         = demoStore.sets.countP (fun s => s.workoutId == 1 && s.exerciseId == 1 && s.setOrder == 1))
    ∧ (∃ st2 st3, patchWorkout 1 none (some [⟨2, [⟨2, some 9, some 10⟩]⟩]) demoStore = .ok st2 ∧
       patchWorkout 1 none (some [⟨2, [⟨2, some 9, some 10⟩]⟩]) st2 = .ok st3 ∧
       st3.sets = demoStore.sets ++ [SetRow.mk 1 2 2 (some 9) (some 10),
                                     SetRow.mk 1 2 2 (some 9) (some 10)]) := by
  constructor
  · obtain ⟨st2, h1, _, _, hc, _, _⟩ :=
      (patch_set_entry_reconciliation 1 1 ⟨1, some 9, some 10⟩ demoStore).1 rfl
    exact ⟨st2, h1, hc⟩
  · obtain ⟨st2, st3, h1, _, h3, h4⟩ :=
      (patch_set_entry_reconciliation 1 2 ⟨2, some 9, some 10⟩ demoStore).2
        (by decide) (by decide) (by decide)
    exact ⟨st2, st3, h1, h3, h4⟩

/-! ## C2: purge of abandoned workouts -/

/-- C2: purging empty workouts for user U deletes exactly U's workouts with
null completedAt together with every set row referencing them, leaves every
completed workout, every other user's workout and every other set row in
place, and cannot leave an orphaned set row: referential integrity of the
sets table is preserved by the single combined statement. -/
theorem purge_empty_workouts_spec (u : Nat) (st : Store) (hu : u ≠ 0) :
    ∃ st2, purgeEmptyWorkouts u st = .ok st2 ∧
      st2.users = st.users ∧ st2.exercises = st.exercises ∧
      (∀ w : Workout, w ∈ st2.workouts ↔
         (w ∈ st.workouts ∧ ¬(w.completedAt = none ∧ w.userId = u))) ∧
      (∀ s : SetRow, s ∈ st2.sets ↔
         (s ∈ st.sets ∧ ¬∃ w ∈ st.workouts,
            w.workoutId = s.workoutId ∧ w.completedAt = none ∧ w.userId = u)) ∧
      ((∀ s ∈ st.sets, ∃ w ∈ st.workouts, w.workoutId = s.workoutId) →
        ∀ s ∈ st2.sets, ∃ w ∈ st2.workouts, w.workoutId = s.workoutId) := by
  have h0 : (u == 0) = false := by simpa using hu
  have hres : purgeEmptyWorkouts u st = .ok
      { st with
        workouts := st.workouts.filter (fun w => !(w.completedAt == none && w.userId == u)),
        sets := st.sets.filter (fun s => !(((st.workouts.filter
          (fun w => w.completedAt == none && w.userId == u)).map
            (fun w => w.workoutId)).contains s.workoutId)) } := by
    rw [purgeEmptyWorkouts]
    simp only [h0, Bool.false_eq_true, if_false]
  have hdoomed : ∀ x : Nat,
      ((((st.workouts.filter (fun w => w.completedAt == none && w.userId == u)).map
        (fun w => w.workoutId)).contains x) = true) ↔
      (∃ w ∈ st.workouts, w.completedAt = none ∧ w.userId = u ∧ w.workoutId = x) := by
    intro x
    rw [List.contains_eq_any_beq, List.any_eq_true]
    constructor
    · rintro ⟨y, hy, hbeq⟩
      rw [List.mem_map] at hy
      obtain ⟨w, hwf, rfl⟩ := hy
      rw [List.mem_filter, Bool.and_eq_true, beq_iff_eq, beq_iff_eq] at hwf
      rw [beq_iff_eq] at hbeq
      exact ⟨w, hwf.1, hwf.2.1, hwf.2.2, hbeq.symm⟩
    · rintro ⟨w, hw, h1, h2, h3⟩
      refine ⟨w.workoutId, ?_, ?_⟩
      · exact List.mem_map_of_mem _ (List.mem_filter.mpr ⟨hw, by
          rw [Bool.and_eq_true, beq_iff_eq, beq_iff_eq]; exact ⟨h1, h2⟩⟩)
      · rw [beq_iff_eq]; exact h3.symm
  refine ⟨_, hres, rfl, rfl, ?_, ?_, ?_⟩
  · intro w
    simp only [List.mem_filter, Bool.not_eq_true', Bool.and_eq_false_iff]
    constructor
    · rintro ⟨hw, hc⟩
      refine ⟨hw, ?_⟩
      rintro ⟨h1, h2⟩
      rcases hc with hc | hc
      · rw [Bool.eq_false_iff, Ne, beq_iff_eq] at hc
        exact hc h1
      · rw [Bool.eq_false_iff, Ne, beq_iff_eq] at hc
        exact hc h2
    · rintro ⟨hw, hc⟩
      refine ⟨hw, ?_⟩
      by_cases h1 : w.completedAt = none
      · right
        rw [Bool.eq_false_iff, Ne, beq_iff_eq]
        intro h2
        exact hc ⟨h1, h2⟩
      · left
        rw [Bool.eq_false_iff, Ne, beq_iff_eq]
        exact h1
  · intro s
    rw [List.mem_filter]
    have hd := hdoomed s.workoutId
    constructor
    · rintro ⟨hs, hc⟩
      refine ⟨hs, ?_⟩
      rintro ⟨w, hw, hwid, hdone, huser⟩
      rw [Bool.not_eq_true', Bool.eq_false_iff] at hc
      exact hc (hd.mpr ⟨w, hw, hdone, huser, hwid⟩)
    · rintro ⟨hs, hno⟩
      refine ⟨hs, ?_⟩
      rw [Bool.not_eq_true', Bool.eq_false_iff]
      intro hc
      obtain ⟨w, hw, hdone, huser, hwid⟩ := hd.mp hc
      exact hno ⟨w, hw, hwid, hdone, huser⟩
  · intro hint s hs2
    rw [List.mem_filter] at hs2
    obtain ⟨hs, hcond⟩ := hs2
    obtain ⟨w, hw, hwid⟩ := hint s hs
    refine ⟨w, ?_, hwid⟩
    rw [List.mem_filter]
    refine ⟨hw, ?_⟩
    rw [Bool.not_eq_true', Bool.eq_false_iff, Ne, Bool.and_eq_true, beq_iff_eq, beq_iff_eq]
    rintro ⟨h1, h2⟩
    rw [Bool.not_eq_true', Bool.eq_false_iff] at hcond
    exact hcond ((hdoomed s.workoutId).mpr ⟨w, hw, h1, h2, hwid⟩)

/-- Witness for C2 on the demo store for user 1: the in-progress workout 1
and its sets disappear, the completed workout 2 stays, and user 2's
in-progress workout 3 keeps its set row. -/
theorem purge_empty_workouts_spec_witness :
    ∃ st2, purgeEmptyWorkouts 1 demoStore = .ok st2 ∧
      Workout.mk 2 1 (some 5) (some "Done") ∈ st2.workouts ∧
      Workout.mk 1 1 none (some "Old") ∉ st2.workouts ∧
      SetRow.mk 1 2 1 (some 5) (some 100) ∉ st2.sets ∧
      SetRow.mk 3 1 1 (some 2) (some 20) ∈ st2.sets := by
  obtain ⟨st2, h1, _, _, hw, hs, _⟩ := purge_empty_workouts_spec 1 demoStore (by decide)
  refine ⟨st2, h1, ?_, ?_, ?_, ?_⟩
  · exact (hw _).mpr ⟨by decide, by decide⟩
  · intro hmem
    exact ((hw _).mp hmem).2 ⟨rfl, rfl⟩
  · intro hmem
    exact ((hs _).mp hmem).2 ⟨⟨1, 1, none, some "Old"⟩, by decide, rfl, rfl, rfl⟩
  · exact (hs _).mpr ⟨by decide, by decide⟩

/-! ## C8: completion is one-way -/

/-- The running maximum in `freshWorkoutId` dominates its accumulator. -/
theorem foldl_max_le_init (l : List Workout) (acc : Nat) :
    acc ≤ l.foldl (fun m w => max m w.workoutId) acc := by
  induction l generalizing acc with
  | nil => exact le_refl acc
  | cons w l ih => exact le_trans (le_max_left acc w.workoutId) (ih _)

/-- The running maximum in `freshWorkoutId` dominates every member. -/
theorem mem_le_foldl_max (l : List Workout) (w : Workout) (hw : w ∈ l) (acc : Nat) :
    w.workoutId ≤ l.foldl (fun m w => max m w.workoutId) acc := by
  induction l generalizing acc with
  | nil => cases hw
  | cons x l ih =>
    rcases List.mem_cons.mp hw with h | h
    · rw [List.foldl_cons]
      exact le_trans (h ▸ le_max_right acc x.workoutId) (foldl_max_le_init l _)
    · exact ih h _

/-- The serial value handed to a new workout exceeds every existing id. -/
theorem workoutId_lt_fresh (st : Store) (w : Workout) (hw : w ∈ st.workouts) :
    w.workoutId < freshWorkoutId st :=
  Nat.lt_succ_of_le (mem_le_foldl_max st.workouts w hw 0)

/-- A run of set statements of one PATCH exercise entry never touches the
"workouts" table. -/
theorem foldSetEntries_workouts (w e : Nat) (ps : List SetPayload) (st : Store) :
    (ps.foldl (fun acc p => applySetEntry w e p acc) st).workouts = st.workouts := by
  induction ps generalizing st with
  | nil => rfl
  | cons p ps ih => rw [List.foldl_cons, ih, applySetEntry_workouts]

/-- One PATCH exercise entry only renames workout rows: ids and completion
timestamps survive. -/
theorem applyExercisePayload_preserve (wid : Nat) (n : Option String)
    (e : ExercisePayload) (st : Store) :
    ∀ w2 ∈ (applyExercisePayload wid n e st).workouts, ∃ w1 ∈ st.workouts,
      w2.workoutId = w1.workoutId ∧ w2.completedAt = w1.completedAt := by
  intro w2 h
  simp only [applyExercisePayload] at h
  cases n with
  | none =>
    rw [foldSetEntries_workouts] at h
    exact ⟨w2, h, rfl, rfl⟩
  | some s =>
    by_cases hs : (s == "") = true
    · simp only [hs, if_true] at h
      rw [foldSetEntries_workouts] at h
      exact ⟨w2, h, rfl, rfl⟩
    · have hs2 : (s == "") = false := by simpa using hs
      simp only [hs2, Bool.false_eq_true, if_false] at h
      rw [foldSetEntries_workouts, List.mem_map] at h
      obtain ⟨x, hx, rfl⟩ := h
      refine ⟨x, hx, ?_, ?_⟩
      · rw [updateWorkoutName]
        split
        · rfl
        · rfl
      · rw [updateWorkoutName]
        split
        · rfl
        · rfl

/-- The whole PATCH body only renames workout rows: ids and completion
timestamps survive. -/
theorem patchApply_preserve (wid : Nat) (n : Option String)
    (exps : List ExercisePayload) (st : Store) :
    ∀ w2 ∈ (patchApply wid n exps st).workouts, ∃ w1 ∈ st.workouts,
      w2.workoutId = w1.workoutId ∧ w2.completedAt = w1.completedAt := by
  induction exps generalizing st with
  | nil => exact fun w2 h => ⟨w2, h, rfl, rfl⟩
  | cons e exps ih =>
    intro w2 h
    rw [patchApply, List.foldl_cons] at h
    have h2 : w2 ∈ (patchApply wid n exps (applyExercisePayload wid n e st)).workouts := by
      rw [patchApply]
      exact h
    obtain ⟨w1, h1, e1, e2⟩ := ih (applyExercisePayload wid n e st) w2 h2
    obtain ⟨w0, h0, f1, f2⟩ := applyExercisePayload_preserve wid n e st w1 h1
    exact ⟨w0, h0, e1.trans f1, e2.trans f2⟩

/-- C8: over every operation of the service, a workout whose completedAt is
non-null never reverts to null; only the complete-workout transition writes
completedAt, and it always writes a non-null timestamp. -/
theorem completedAt_one_way (op : Op) (st : Store)
    (hids : (st.workouts.map (fun w => w.workoutId)).Nodup) :
    (∀ w ∈ st.workouts, ∀ t : Nat, w.completedAt = some t →
       ∀ w2 ∈ (applyOp op st).workouts, w2.workoutId = w.workoutId →
         w2.completedAt ≠ none)
    ∧ ((∀ wid n d, op ≠ Op.completeWorkoutOp wid n d) →
       ∀ w2 ∈ (applyOp op st).workouts, ∀ w ∈ st.workouts,
         w.workoutId = w2.workoutId → w2.completedAt = w.completedAt)
    ∧ (∀ wid n d, wid ≠ 0 →
         ∀ w2 ∈ (applyOp (Op.completeWorkoutOp wid n d) st).workouts,
           w2.workoutId = wid → w2.completedAt = some d) := by
  have huniq : ∀ a ∈ st.workouts, ∀ b ∈ st.workouts, a.workoutId = b.workoutId → a = b := by
    intro a ha b hb hab
    exact List.inj_on_of_nodup_map hids ha hb hab
  have hcomplete : ∀ wid (n : Option String) (d : Nat), wid ≠ 0 →
      ∀ w2 ∈ (applyOp (Op.completeWorkoutOp wid n d) st).workouts,
        w2.workoutId = wid → w2.completedAt = some d := by
    intro wid n d hwid0 w2 h2 hid2
    have h0 : (wid == 0) = false := by simpa using hwid0
    simp only [applyOp, completeWorkout, h0, Bool.false_eq_true, if_false, stateOf] at h2
    rw [List.mem_map] at h2
    obtain ⟨x, hx, rfl⟩ := h2
    by_cases hm : (x.workoutId == wid) = true
    · simp only [hm, if_true]
    · have hm2 : (x.workoutId == wid) = false := by simpa using hm
      simp only [hm2, Bool.false_eq_true, if_false] at hid2 ⊢
      rw [beq_eq_false_iff_ne] at hm2
      exact absurd hid2 hm2
  have hgen : ∀ post : Store, (∀ w2 ∈ post.workouts, w2 ∈ st.workouts) →
      ((∀ w ∈ st.workouts, ∀ t : Nat, w.completedAt = some t →
          ∀ w2 ∈ post.workouts, w2.workoutId = w.workoutId → w2.completedAt ≠ none) ∧
       (∀ w2 ∈ post.workouts, ∀ w ∈ st.workouts, w.workoutId = w2.workoutId →
          w2.completedAt = w.completedAt)) := by
    intro post hsub
    constructor
    · intro w hw t ht w2 h2 hid
      rw [huniq w2 (hsub w2 h2) w hw hid, ht]
      exact Option.some_ne_none t
    · intro w2 h2 w hw hid
      rw [huniq w hw w2 (hsub w2 h2) hid]
  cases op with
  | signUpOp u h =>
    have hsub : ∀ w2 ∈ (applyOp (Op.signUpOp u h) st).workouts, w2 ∈ st.workouts := by
      intro w2 hmem
      simp only [applyOp] at hmem
      rw [signUp] at hmem
      split at hmem
      · exact hmem
      · split at hmem
        · exact hmem
        · exact hmem
    obtain ⟨g1, g2⟩ := hgen _ hsub
    exact ⟨g1, fun _ => g2, hcomplete⟩
  | newWorkoutOp u nm =>
    constructor
    · intro w hw t ht w2 h2 hid
      simp only [applyOp] at h2
      rw [newWorkout] at h2
      split at h2
      · exact (huniq w2 h2 w hw hid) ▸ (ht ▸ Option.some_ne_none t)
      · split at h2
        · exact (huniq w2 h2 w hw hid) ▸ (ht ▸ Option.some_ne_none t)
        · rw [stateOfPair] at h2
          rcases List.mem_append.mp h2 with h3 | h3
          · exact (huniq w2 h3 w hw hid) ▸ (ht ▸ Option.some_ne_none t)
          · rw [List.mem_singleton] at h3
            subst h3
            have := workoutId_lt_fresh st w hw
            rw [← hid] at this
            simp only at this
            omega
    · constructor
      · intro _ w2 h2 w hw hid
        simp only [applyOp] at h2
        rw [newWorkout] at h2
        split at h2
        · exact congrArg Workout.completedAt (huniq w hw w2 h2 hid) |>.symm ▸ rfl
        · split at h2
          · rw [huniq w hw w2 h2 hid]
          · rw [stateOfPair] at h2
            rcases List.mem_append.mp h2 with h3 | h3
            · rw [huniq w hw w2 h3 hid]
            · rw [List.mem_singleton] at h3
              subst h3
              have := workoutId_lt_fresh st w hw
              simp only at hid
              omega
      · exact hcomplete
  | newExercisesOp w ids =>
    have hsub : ∀ w2 ∈ (applyOp (Op.newExercisesOp w ids) st).workouts, w2 ∈ st.workouts := by
      intro w2 hmem
      simp only [applyOp] at hmem
      rw [newExercises] at hmem
      split at hmem
      · exact hmem
      · split at hmem
        · exact hmem
        · exact hmem
    obtain ⟨g1, g2⟩ := hgen _ hsub
    exact ⟨g1, fun _ => g2, hcomplete⟩
  | patchWorkoutOp wid nm exps =>
    cases exps with
    | none =>
      have hsub : ∀ w2 ∈ (applyOp (Op.patchWorkoutOp wid nm none) st).workouts,
          w2 ∈ st.workouts := by
        intro w2 hmem
        simp only [applyOp, patchWorkout, stateOf] at hmem
        exact hmem
      obtain ⟨g1, g2⟩ := hgen _ hsub
      exact ⟨g1, fun _ => g2, hcomplete⟩
    | some l =>
      have hpres : ∀ w2 ∈ (applyOp (Op.patchWorkoutOp wid nm (some l)) st).workouts,
          ∃ w1 ∈ st.workouts, w2.workoutId = w1.workoutId ∧
            w2.completedAt = w1.completedAt := by
        intro w2 hmem
        simp only [applyOp, patchWorkout, stateOf] at hmem
        exact patchApply_preserve wid nm l st w2 hmem
      constructor
      · intro w hw t ht w2 h2 hid
        obtain ⟨w1, h1, e1, e2⟩ := hpres w2 h2
        rw [e2, huniq w1 h1 w hw (e1 ▸ hid), ht]
        exact Option.some_ne_none t
      · constructor
        · intro _ w2 h2 w hw hid
          obtain ⟨w1, h1, e1, e2⟩ := hpres w2 h2
          rw [e2, huniq w hw w1 h1 (hid.trans e1)]
        · exact hcomplete
  | swapExerciseOp w e e2 =>
    have hsub : ∀ w2 ∈ (applyOp (Op.swapExerciseOp w e e2) st).workouts,
        w2 ∈ st.workouts := by
      intro w2 hmem
      simp only [applyOp] at hmem
      rw [swapExercise] at hmem
      split at hmem
      · exact hmem
      · split at hmem
        · exact hmem
        · exact hmem
    obtain ⟨g1, g2⟩ := hgen _ hsub
    exact ⟨g1, fun _ => g2, hcomplete⟩
  | completeWorkoutOp wid nm d =>
    constructor
    · intro w hw t ht w2 h2 hid
      by_cases h0 : (wid == 0) = true
      · simp only [applyOp, completeWorkout, h0, if_true, stateOf] at h2
        rw [huniq w2 h2 w hw hid, ht]
        exact Option.some_ne_none t
      · have h0f : (wid == 0) = false := by simpa using h0
        simp only [applyOp, completeWorkout, h0f, Bool.false_eq_true, if_false, stateOf] at h2
        rw [List.mem_map] at h2
        obtain ⟨x, hx, rfl⟩ := h2
        by_cases hm : (x.workoutId == wid) = true
        · simp only [hm, if_true]
          exact Option.some_ne_none d
        · have hm2 : (x.workoutId == wid) = false := by simpa using hm
          simp only [hm2, Bool.false_eq_true, if_false] at hid ⊢
          rw [huniq x hx w hw hid, ht]
          exact Option.some_ne_none t
    · constructor
      · intro hne
        exact absurd rfl (hne wid nm d)
      · exact hcomplete
  | deleteExerciseOp w e =>
    have hsub : ∀ w2 ∈ (applyOp (Op.deleteExerciseOp w e) st).workouts,
        w2 ∈ st.workouts := by
      intro w2 hmem
      simp only [applyOp] at hmem
      rw [deleteExercise] at hmem
      split at hmem
      · exact hmem
      · exact hmem
    obtain ⟨g1, g2⟩ := hgen _ hsub
    exact ⟨g1, fun _ => g2, hcomplete⟩
  | purgeOp u =>
    have hsub : ∀ w2 ∈ (applyOp (Op.purgeOp u) st).workouts, w2 ∈ st.workouts := by
      intro w2 hmem
      simp only [applyOp] at hmem
      rw [purgeEmptyWorkouts] at hmem
      split at hmem
      · exact hmem
      · exact (List.mem_filter.mp hmem).1
    obtain ⟨g1, g2⟩ := hgen _ hsub
    exact ⟨g1, fun _ => g2, hcomplete⟩

/-- Witness for C8: purging user 1's empty workouts leaves the completed
workout 2 completed. -/
theorem completedAt_one_way_witness :
    Workout.mk 2 1 (some 5) (some "Done") ∈ demoStore.workouts ∧
    ∀ w2 ∈ (applyOp (Op.purgeOp 1) demoStore).workouts,
      w2.workoutId = 2 → w2.completedAt ≠ none := by
  refine ⟨by decide, ?_⟩
  intro w2 h2 hid
  exact (completedAt_one_way (Op.purgeOp 1) demoStore (by decide)).1
    ⟨2, 1, some 5, some "Done"⟩ (by decide) 5 rfl w2 h2 hid

/-! ## C6: the best-set statistics query -/

/-- Every row of the filled join is backed by a stored set row of the user
with the same key columns and values. -/
theorem mem_filledRows (u : Nat) (st : Store) (r : BestRow)
    (hr : r ∈ filledRows u st) :
    ∃ s ∈ st.sets, s.workoutId = r.workoutId ∧ s.exerciseId = r.exerciseId ∧
      s.reps = some r.reps ∧ s.weight = some r.weight ∧ OwnedFilled u st s := by
  rw [filledRows, List.mem_filterMap] at hr
  obtain ⟨s, hs, hmap⟩ := hr
  cases hrp : s.reps with
  | none => rw [hrp] at hmap; simp at hmap
  | some rp =>
  cases hwt : s.weight with
  | none => rw [hrp, hwt] at hmap; simp at hmap
  | some wt =>
  rw [hrp, hwt] at hmap
  cases hfw : st.workouts.find? (fun w => w.workoutId == s.workoutId) with
  | none => rw [hfw] at hmap; simp at hmap
  | some w =>
  cases hfe : st.exercises.find? (fun e => e.exerciseId == s.exerciseId) with
  | none => rw [hfw, hfe] at hmap; simp at hmap
  | some e =>
  rw [hfw, hfe] at hmap
  by_cases hu : (w.userId == u) = true
  · simp only [hu, if_true, Option.some.injEq] at hmap
    have hwmem := List.mem_of_find?_eq_some hfw
    have hwid : w.workoutId = s.workoutId := by simpa using List.find?_some hfw
    have hemem := List.mem_of_find?_eq_some hfe
    have heid : e.exerciseId = s.exerciseId := by simpa using List.find?_some hfe
    refine ⟨s, hs, ?_, ?_, ?_, ?_, ?_, ?_, ?_, ?_⟩
    · rw [← hmap]
    · rw [← hmap]
    · rw [← hmap, hrp]
    · rw [← hmap, hwt]
    · rw [hrp]; exact Option.some_ne_none rp
    · rw [hwt]; exact Option.some_ne_none wt
    · exact ⟨w, hwmem, hwid, by simpa using hu⟩
    · exact ⟨e, hemem, heid⟩
  · have hu2 : (w.userId == u) = false := by simpa using hu
    simp [hu2] at hmap

/-- Every filled, owned set row yields a row of the filled join carrying its
values (primary keys of workouts and exercises assumed unique). -/
theorem filledRows_complete (u : Nat) (st : Store) (hids : UniqueIds st)
    (s : SetRow) (hs : s ∈ st.sets) (hof : OwnedFilled u st s)
    (rp : Int) (wt : Rat) (hrp : s.reps = some rp) (hwt : s.weight = some wt) :
    ∃ r ∈ filledRows u st, r.workoutId = s.workoutId ∧ r.exerciseId = s.exerciseId ∧
      r.reps = rp ∧ r.weight = wt := by
  obtain ⟨_, _, ⟨w, hw, hwid, hwu⟩, ⟨e, he, heid⟩⟩ := hof
  have hfw : ∃ w2, st.workouts.find? (fun x => x.workoutId == s.workoutId) = some w2 := by
    rw [← Option.isSome_iff_exists, List.find?_isSome]
    exact ⟨w, hw, by simpa using hwid⟩
  obtain ⟨w2, hfw⟩ := hfw
  have hw2mem := List.mem_of_find?_eq_some hfw
  have hw2id : w2.workoutId = s.workoutId := by simpa using List.find?_some hfw
  have hw2u : (w2.userId == u) = true := by
    have heq : w2 = w := List.inj_on_of_nodup_map hids.1 hw2mem hw (by rw [hw2id, hwid])
    rw [heq, hwu]
    exact beq_self_eq_true u
  have hfe : ∃ e2, st.exercises.find? (fun x => x.exerciseId == s.exerciseId) = some e2 := by
    rw [← Option.isSome_iff_exists, List.find?_isSome]
    exact ⟨e, he, by simpa using heid⟩
  obtain ⟨e2, hfe⟩ := hfe
  refine ⟨BestRow.mk s.workoutId s.exerciseId s.setOrder rp wt w2.userId w2.completedAt
    w2.workoutName e2.name e2.muscleGroup e2.equipment, ?_, rfl, rfl, rfl, rfl⟩
  rw [filledRows, List.mem_filterMap]
  refine ⟨s, hs, ?_⟩
  rw [hrp, hwt, hfw, hfe]
  simp only [hw2u, if_true]

/-- A non-empty list of joined rows has an element of maximal volume. -/
theorem exists_max_volume (g : List BestRow) (hg : g ≠ []) :
    ∃ m ∈ g, ∀ x ∈ g, volume x ≤ volume m := by
  induction g with
  | nil => exact absurd rfl hg
  | cons a g ih =>
    cases g with
    | nil =>
      refine ⟨a, List.mem_singleton_self a, ?_⟩
      intro x hx
      rw [List.mem_singleton] at hx
      rw [hx]
    | cons b g2 =>
      obtain ⟨m, hm, hmax⟩ := ih (by simp)
      by_cases h : volume m ≤ volume a
      · refine ⟨a, List.mem_cons_self a (b :: g2), ?_⟩
        intro x hx
        rcases List.mem_cons.mp hx with h2 | h2
        · rw [h2]
        · exact le_trans (hmax x h2) h
      · refine ⟨m, List.mem_cons_of_mem a hm, ?_⟩
        intro x hx
        rcases List.mem_cons.mp hx with h2 | h2
        · rw [h2]; exact le_of_not_le h
        · exact hmax x h2

/-- What `bestOfPair` returns: a row of the group of maximal volume. -/
theorem bestOfPair_some (rows : List BestRow) (k : Nat × Nat) (r : BestRow)
    (h : bestOfPair rows k = some r) :
    r ∈ rows ∧ pairKey r = k ∧ ∀ x ∈ rows, pairKey x = k → volume x ≤ volume r := by
  simp only [bestOfPair] at h
  have hmem := List.mem_of_find?_eq_some h
  rw [List.mem_filter] at hmem
  have hpred := List.find?_some h
  rw [List.all_eq_true] at hpred
  refine ⟨hmem.1, by simpa using hmem.2, ?_⟩
  intro x hx hkx
  have hxg : x ∈ rows.filter (fun r2 => pairKey r2 == k) :=
    List.mem_filter.mpr ⟨hx, by simpa using hkx⟩
  simpa using hpred x hxg

/-- `bestOfPair` succeeds on every key that occurs among the rows. -/
theorem bestOfPair_isSome (rows : List BestRow) (k : Nat × Nat)
    (h : ∃ r ∈ rows, pairKey r = k) : ∃ r, bestOfPair rows k = some r := by
  obtain ⟨r0, hr0, hk⟩ := h
  simp only [bestOfPair]
  rw [← Option.isSome_iff_exists, List.find?_isSome]
  have hgne : rows.filter (fun r2 => pairKey r2 == k) ≠ [] := by
    intro hnil
    have hmem : r0 ∈ rows.filter (fun r2 => pairKey r2 == k) :=
      List.mem_filter.mpr ⟨hr0, by simpa using hk⟩
    rw [hnil] at hmem
    cases hmem
  obtain ⟨m, hm, hmax⟩ := exists_max_volume _ hgne
  refine ⟨m, hm, ?_⟩
  rw [List.all_eq_true]
  intro x hx
  simpa using hmax x hx

/-- A filterMap whose producer respects keys keeps a nodup key list nodup. -/
theorem nodup_map_filterMap {α β γ : Type} (key : α → γ) (key2 : β → γ)
    (f : α → Option β) (hf : ∀ a b, f a = some b → key2 b = key a) :
    ∀ l : List α, (l.map key).Nodup → ((l.filterMap f).map key2).Nodup := by
  intro l
  induction l with
  | nil => intro _; simp
  | cons a l ih =>
    intro hn
    rw [List.map_cons, List.nodup_cons] at hn
    rw [List.filterMap_cons]
    cases hfa : f a with
    | none => exact ih hn.2
    | some b =>
      rw [List.map_cons, List.nodup_cons]
      refine ⟨?_, ih hn.2⟩
      intro hmem
      rw [List.mem_map] at hmem
      obtain ⟨x, hx, hkx⟩ := hmem
      rw [List.mem_filterMap] at hx
      obtain ⟨a2, ha2, hfa2⟩ := hx
      apply hn.1
      rw [List.mem_map]
      exact ⟨a2, ha2, by rw [← hf a2 x hfa2, hkx, hf a b hfa]⟩

/-- Every surviving `row_number = 1` row belongs to the grouped CTE and has
maximal volume within its (workout, exercise) partition. -/
theorem rowNumberOne_mem (u : Nat) (st : Store) (b : BestRow)
    (hb : b ∈ rowNumberOne u st) :
    b ∈ bestSetCTE u st ∧ ∀ x ∈ bestSetCTE u st, pairKey x = pairKey b →
      volume x ≤ volume b := by
  simp only [rowNumberOne] at hb
  rw [List.mem_filterMap] at hb
  obtain ⟨k, hk, hbk⟩ := hb
  obtain ⟨h1, h2, h3⟩ := bestOfPair_some _ k b hbk
  exact ⟨h1, fun x hx hkx => h3 x hx (by rw [hkx, h2])⟩

/-- Every (workout, exercise) key of the grouped CTE survives
`row_number = 1`. -/
theorem rowNumberOne_complete (u : Nat) (st : Store) (r : BestRow)
    (hr : r ∈ bestSetCTE u st) :
    ∃ b ∈ rowNumberOne u st, pairKey b = pairKey r := by
  have hkmem : pairKey r ∈ ((bestSetCTE u st).map pairKey).dedup := by
    rw [List.mem_dedup, List.mem_map]
    exact ⟨r, hr, rfl⟩
  obtain ⟨b, hbk⟩ := bestOfPair_isSome (bestSetCTE u st) (pairKey r) ⟨r, hr, rfl⟩
  refine ⟨b, ?_, (bestOfPair_some _ _ _ hbk).2.1⟩
  simp only [rowNumberOne]
  rw [List.mem_filterMap]
  exact ⟨pairKey r, hkmem, hbk⟩

/-- `row_number = 1` keeps at most one row per (workout, exercise) key. -/
theorem rowNumberOne_nodup_keys (u : Nat) (st : Store) :
    ((rowNumberOne u st).map pairKey).Nodup := by
  simp only [rowNumberOne]
  refine nodup_map_filterMap (fun k => k) pairKey _ ?_ _ ?_
  · intro k b hkb
    exact (bestOfPair_some _ k b hkb).2.1
  · have : (((bestSetCTE u st).map pairKey).dedup.map (fun k => k))
        = ((bestSetCTE u st).map pairKey).dedup := List.map_id' _
    rw [this]
    exact List.nodup_dedup _

/-- Every key of the filled join owns a row of the totals CTE. -/
theorem totalSetsCTE_complete (u : Nat) (st : Store) (r : BestRow)
    (hr : r ∈ filledRows u st) :
    ∃ t ∈ totalSetsCTE u st, t.workoutId = r.workoutId ∧ t.exerciseId = r.exerciseId := by
  have hkmem : pairKey r ∈ ((filledRows u st).map pairKey).dedup := by
    rw [List.mem_dedup, List.mem_map]
    exact ⟨r, hr, rfl⟩
  have hne : (filledRows u st).filter (fun x => pairKey x == pairKey r) ≠ [] := by
    intro hnil
    have hmem : r ∈ (filledRows u st).filter (fun x => pairKey x == pairKey r) :=
      List.mem_filter.mpr ⟨hr, by simp⟩
    rw [hnil] at hmem
    cases hmem
  obtain ⟨r0, rest, hcons⟩ := List.exists_cons_of_ne_nil hne
  refine ⟨⟨r.workoutId, r.exerciseId,
    ((filledRows u st).filter (fun x => pairKey x == pairKey r)).length,
    r0.completedAt⟩, ?_, rfl, rfl⟩
  simp only [totalSetsCTE]
  rw [List.mem_filterMap]
  refine ⟨pairKey r, hkmem, ?_⟩
  rw [hcons, List.head?_cons]
  rfl

/-- C6: the best-set statistics query considers only the caller's set rows
with both reps and weight non-null, returns exactly one row per
(workout, exercise) pair that has such a row, each result row carries the
reps and weight of a stored set of maximal volume (reps times weight) for
its pair, and the result is ordered by exercise name ascending. -/
theorem workout_sets_best_spec (u : Nat) (st : Store) (hu : u ≠ 0)
    (hids : UniqueIds st) :
    ∃ res, getUserWorkoutSets u st = .ok res ∧
      (∀ r ∈ res, ∃ s ∈ st.sets, OwnedFilled u st s ∧
         s.workoutId = r.workoutId ∧ s.exerciseId = r.exerciseId ∧
         s.reps = some r.reps ∧ s.weight = some r.weight ∧
         (∀ s2 ∈ st.sets, OwnedFilled u st s2 → s2.workoutId = r.workoutId →
            s2.exerciseId = r.exerciseId → ∀ rp : Int, ∀ wt : Rat,
            s2.reps = some rp → s2.weight = some wt →
            (rp : Rat) * wt ≤ (r.reps : Rat) * r.weight)) ∧
      (res.map (fun r => (r.workoutId, r.exerciseId))).Nodup ∧
      (∀ s ∈ st.sets, OwnedFilled u st s →
         ∃ r ∈ res, r.workoutId = s.workoutId ∧ r.exerciseId = s.exerciseId) ∧
      List.Sorted statLE res := by
  have h0 : (u == 0) = false := by simpa using hu
  have hres : getUserWorkoutSets u st = .ok
      (((rowNumberOne u st).filterMap (fun b =>
        (((totalSetsCTE u st).find? (fun t =>
            t.workoutId == b.workoutId && t.exerciseId == b.exerciseId)).map
          (fun t => StatRow.mk b.equipment b.exerciseId b.name b.reps t.totalSets
                    b.weight b.workoutId b.workoutName t.completedAt)))).insertionSort statLE) := by
    simp only [getUserWorkoutSets, h0, Bool.false_eq_true, if_false]
  have hjoin_mem : ∀ x ∈ (rowNumberOne u st).filterMap (fun b =>
      (((totalSetsCTE u st).find? (fun t =>
          t.workoutId == b.workoutId && t.exerciseId == b.exerciseId)).map
        (fun t => StatRow.mk b.equipment b.exerciseId b.name b.reps t.totalSets
                  b.weight b.workoutId b.workoutName t.completedAt))),
      ∃ b ∈ rowNumberOne u st, x.workoutId = b.workoutId ∧
        x.exerciseId = b.exerciseId ∧ x.reps = b.reps ∧ x.weight = b.weight := by
    intro x hx
    rw [List.mem_filterMap] at hx
    obtain ⟨b, hb, hmap⟩ := hx
    rw [Option.map_eq_some'] at hmap
    obtain ⟨t, _, hxe⟩ := hmap
    exact ⟨b, hb, by rw [← hxe], by rw [← hxe], by rw [← hxe], by rw [← hxe]⟩
  refine ⟨_, hres, ?_, ?_, ?_, ?_⟩
  · intro r hr
    rw [List.mem_insertionSort] at hr
    obtain ⟨b, hb, hxw, hxe, hxrp, hxwt⟩ := hjoin_mem r hr
    have hbmem := rowNumberOne_mem u st b hb
    have hbfill : b ∈ filledRows u st := by
      have h1 := hbmem.1
      rw [bestSetCTE] at h1
      exact List.mem_dedup.mp h1
    obtain ⟨s, hsmem, hsw, hse, hsrp, hswt, hsof⟩ := mem_filledRows u st b hbfill
    refine ⟨s, hsmem, hsof, by rw [hsw, hxw], by rw [hse, hxe],
      by rw [hsrp, hxrp], by rw [hswt, hxwt], ?_⟩
    intro s2 hs2 hof2 hw2 he2 rp wt hrp2 hwt2
    obtain ⟨r2, hr2, hrw2, hre2, hrrp2, hrwt2⟩ :=
      filledRows_complete u st hids s2 hs2 hof2 rp wt hrp2 hwt2
    have hr2cte : r2 ∈ bestSetCTE u st := by
      rw [bestSetCTE]
      exact List.mem_dedup.mpr hr2
    have hkey : pairKey r2 = pairKey b := by
      simp only [pairKey]
      rw [hrw2, hre2, hw2, he2, hxw, hxe]
    have hvol := hbmem.2 r2 hr2cte hkey
    rw [volume, volume, hrrp2, hrwt2] at hvol
    rw [hxrp, hxwt]
    exact hvol
  · have hjnodup : (((rowNumberOne u st).filterMap (fun b =>
        (((totalSetsCTE u st).find? (fun t =>
            t.workoutId == b.workoutId && t.exerciseId == b.exerciseId)).map
          (fun t => StatRow.mk b.equipment b.exerciseId b.name b.reps t.totalSets
                    b.weight b.workoutId b.workoutName t.completedAt)))).map
        (fun r => (r.workoutId, r.exerciseId))).Nodup := by
      refine nodup_map_filterMap pairKey (fun x : StatRow => (x.workoutId, x.exerciseId)) _ ?_ _
        (rowNumberOne_nodup_keys u st)
      intro b x hbx
      rw [Option.map_eq_some'] at hbx
      obtain ⟨t, _, hxe⟩ := hbx
      rw [← hxe]
      rfl
    have hperm := List.perm_insertionSort statLE ((rowNumberOne u st).filterMap (fun b =>
        (((totalSetsCTE u st).find? (fun t =>
            t.workoutId == b.workoutId && t.exerciseId == b.exerciseId)).map
          (fun t => StatRow.mk b.equipment b.exerciseId b.name b.reps t.totalSets
                    b.weight b.workoutId b.workoutName t.completedAt))))
    exact ((hperm.map (fun r => (r.workoutId, r.exerciseId))).nodup_iff).mpr hjnodup
  · intro s hs hof
    obtain ⟨rp, hrp⟩ := Option.ne_none_iff_exists'.mp hof.1
    obtain ⟨wt, hwt⟩ := Option.ne_none_iff_exists'.mp hof.2.1
    obtain ⟨r1, hr1, hr1w, hr1e, _, _⟩ :=
      filledRows_complete u st hids s hs hof rp wt hrp hwt
    have hr1cte : r1 ∈ bestSetCTE u st := by
      rw [bestSetCTE]
      exact List.mem_dedup.mpr hr1
    obtain ⟨b, hbmem2, hbk⟩ := rowNumberOne_complete u st r1 hr1cte
    have hbfill2 : b ∈ filledRows u st := by
      have h1 := (rowNumberOne_mem u st b hbmem2).1
      rw [bestSetCTE] at h1
      exact List.mem_dedup.mp h1
    obtain ⟨t0, ht0mem, ht0w, ht0e⟩ := totalSetsCTE_complete u st b hbfill2
    have hfind : ∃ t, (totalSetsCTE u st).find? (fun t =>
        t.workoutId == b.workoutId && t.exerciseId == b.exerciseId) = some t := by
      rw [← Option.isSome_iff_exists, List.find?_isSome]
      refine ⟨t0, ht0mem, ?_⟩
      rw [Bool.and_eq_true, beq_iff_eq, beq_iff_eq]
      exact ⟨ht0w, ht0e⟩
    obtain ⟨t, hfind⟩ := hfind
    have hbw : b.workoutId = r1.workoutId := congrArg Prod.fst hbk
    have hbe : b.exerciseId = r1.exerciseId := congrArg Prod.snd hbk
    refine ⟨StatRow.mk b.equipment b.exerciseId b.name b.reps t.totalSets b.weight
      b.workoutId b.workoutName t.completedAt, ?_, ?_, ?_⟩
    · rw [List.mem_insertionSort, List.mem_filterMap]
      refine ⟨b, hbmem2, ?_⟩
      rw [hfind]
      rfl
    · show b.workoutId = s.workoutId
      rw [hbw, hr1w]
    · show b.exerciseId = s.exerciseId
      rw [hbe, hr1e]
  · exact List.sorted_insertionSort statLE _

/-- Witness for C6 on the demo store for user 1: the query succeeds, keys are
unique, and the result is name-sorted. -/
theorem workout_sets_best_spec_witness :
    ∃ res, getUserWorkoutSets 1 demoStore = .ok res ∧
      (res.map (fun r => (r.workoutId, r.exerciseId))).Nodup ∧
      List.Sorted statLE res := by
  obtain ⟨res, h1, _, h3, _, h5⟩ :=
    workout_sets_best_spec 1 demoStore (by decide) ⟨by decide, by decide⟩
  exact ⟨res, h1, h3, h5⟩
